import Mathlib

/-!
Shallow embedding of `pyiges/geometry.py` (the IGES parameter-data decoding
layer) and proofs about it.

Token lists are `List String`, exactly as the tokenizer hands them to the
decoders.  Python runtime behaviour is made explicit:

* list indexing raises `IndexError` when the (possibly negative) index is out
  of range, and negative indices count from the end;
* `float(...)` / `int(...)` raise `ValueError` on unparseable strings;
* adding an `int` to a `str` raises `TypeError`;
* reading a name that was never assigned raises `NameError`;
* slices clamp silently; `range` is empty when the bounds are inverted.

Numeric values are modelled as exact rationals (`ℚ`): every decimal literal
with a decimal exponent denotes a rational, and the properties at issue are
about which tokens are decoded into which slots, not about rounding.
-/

/-- The Python exceptions that the embedded code can raise. -/
inductive PyErr where
  | indexError
  | valueError
  | typeError
  | nameError
  deriving DecidableEq, Repr, Inhabited

deriving instance DecidableEq for Except

/-- Python list indexing `l[i]`: negative indices count from the end;
an index that is still out of range raises `IndexError`. -/
def pyGet {α : Type} (l : List α) (i : ℤ) : Except PyErr α :=
  let j : ℤ := if i < 0 then i + l.length else i
  if 0 ≤ j then
    match l.get? j.toNat with
    | some x => .ok x
    | none => .error .indexError
  else .error .indexError

/-- Python `range(a, b)` over integers. -/
def pyRange (a b : ℤ) : List ℤ :=
  (List.range (b - a).toNat).map (fun n : ℕ => a + (n : ℤ))

/-- Python `range(a, b, 3)` over integers. -/
def pyRange3 (a b : ℤ) : List ℤ :=
  (List.range (((b - a).toNat + 2) / 3)).map (fun n : ℕ => a + 3 * (n : ℤ))

/-- Python slice `l[a:b]`: negative bounds count from the end, and both
bounds clamp silently to the list. -/
def pySlice {α : Type} (l : List α) (a b : ℤ) : List α :=
  let n : ℤ := l.length
  let lo : ℤ := if a < 0 then max (a + n) 0 else min a n
  let hi : ℤ := if b < 0 then max (b + n) 0 else min b n
  (l.drop lo.toNat).take (hi.toNat - lo.toNat)

/-- Characters `0`–`9`, tested on code points. -/
def isDig (c : Char) : Bool :=
  48 ≤ c.toNat && c.toNat ≤ 57

/-- Value of a digit string (most significant first). -/
def natVal (ds : List Char) : ℕ :=
  ds.foldl (fun a c => 10 * a + (c.toNat - 48)) 0

/-- Mantissa value of `ip.fp` as an exact rational. -/
def mantVal (ip fp : List Char) : ℚ :=
  (natVal ip : ℚ) + (natVal fp : ℚ) / 10 ^ fp.length

/-- Exponent digits of a float literal: all remaining characters must be
digits and there must be at least one. -/
def expDigs (cs : List Char) (m : ℚ) (pos : Bool) : Option ℚ :=
  if cs = [] then none
  else if cs.all isDig then
    some (if pos then m * 10 ^ natVal cs else m / 10 ^ natVal cs)
  else none

/-- After the exponent marker: an optional sign, then digits. -/
def expTail : List Char → ℚ → Option ℚ
  | [], _ => none
  | c :: r, m =>
    if c.toNat = 43 then expDigs r m true
    else if c.toNat = 45 then expDigs r m false
    else expDigs (c :: r) m true

/-- After the mantissa: either the end of the literal or an exponent part
introduced by `e`/`E`. -/
def afterMant : List Char → ℚ → Option ℚ
  | [], m => some m
  | c :: r, m =>
    if c.toNat = 101 ∨ c.toNat = 69 then expTail r m else none

/-- What follows the integer digits `ip` of a float literal: end of input, a
point with fraction digits, or directly the exponent part. -/
def floatRest : List Char → List Char → Option ℚ
  | [], ip => if ip = [] then none else some (natVal ip)
  | c :: r2, ip =>
    if c.toNat = 46 then
      if ip = [] ∧ r2.takeWhile isDig = [] then none
      else afterMant (r2.dropWhile isDig) (mantVal ip (r2.takeWhile isDig))
    else if ip = [] then none
    else afterMant (c :: r2) (natVal ip)

/-- Unsigned part of a standard float literal: integer digits, an optional
point with fraction digits, then an optional exponent.  At least one mantissa
digit is required. -/
def floatMag (cs : List Char) : Option ℚ :=
  floatRest (cs.dropWhile isDig) (cs.takeWhile isDig)

/-- A standard float literal: optional sign, then `floatMag`.
This is the model of Python's built-in `float(str)` on exchange-file tokens
(whitespace, `inf`/`nan` and digit underscores do not occur in them). -/
def floatChars : List Char → Option ℚ
  | [] => none
  | c :: r =>
    if c.toNat = 43 then floatMag r
    else if c.toNat = 45 then (floatMag r).map Neg.neg
    else floatMag (c :: r)

/-- Model of Python `float(s)`. -/
def floatOfString (s : String) : Option ℚ :=
  floatChars s.toList

/-- Model of Python `str.lower()` on the basic latin range (the only
characters appearing in IGES tokens). -/
def pyLower (c : Char) : Char :=
  if 65 ≤ c.toNat ∧ c.toNat ≤ 90 then Char.ofNat (c.toNat + 32) else c

/-- One character of `s.lower().replace("d", "e")`. -/
def dNorm (c : Char) : Char :=
  if (pyLower c).toNat = 100 then 'e' else pyLower c

/-- Build a string by mapping a function over the characters. -/
def mapStr (f : Char → Char) (s : String) : String :=
  ⟨s.toList.map f⟩

/-- `s.lower().replace("d", "e")` from the source's fallback branch. -/
def dToE (s : String) : String :=
  mapStr dNorm s

/--
`parse_float` from `pyiges/geometry.py`:

    try:
        return float(str_value)
    except ValueError:
        return float(str_value.lower().replace("d", "e"))

`none` models the un-caught `ValueError` of the second `float`. -/
def parse_float (str_value : String) : Option ℚ :=
  match floatOfString str_value with
  | some q => some q
  | none => floatOfString (dToE str_value)

/-- Digit run for `int(str)`: nonempty and all digits. -/
def intDigs (cs : List Char) : Option ℤ :=
  if cs = [] then none
  else if cs.all isDig then some (natVal cs) else none

/-- Model of Python `int(str)`: optional sign, then digits. -/
def intChars (cs : List Char) : Option ℤ :=
  match cs with
  | [] => none
  | c :: r =>
    if c.toNat = 43 then intDigs r
    else if c.toNat = 45 then (intDigs r).map Neg.neg
    else intDigs (c :: r)

/-- `int(l[i])` as used all over the decoders. -/
def pyIntAt (l : List String) (i : ℤ) : Except PyErr ℤ := do
  let s ← pyGet l i
  match intChars s.toList with
  | some z => .ok z
  | none => .error .valueError

/-- `parse_float(l[i])` as used all over the decoders. -/
def pyFloatAt (l : List String) (i : ℤ) : Except PyErr ℚ := do
  let s ← pyGet l i
  match parse_float s with
  | some q => .ok q
  | none => .error .valueError

/-- `float(str)` raising `ValueError` on failure (used where the source calls
`parse_float` on every token up front). -/
def pyFloatEx (s : String) : Except PyErr ℚ :=
  match parse_float s with
  | some q => .ok q
  | none => .error .valueError

/-- Python `int(x)` on a float value: truncation toward zero
(`Int.div` on the reduced numerator and denominator truncates toward zero). -/
def pyTrunc (q : ℚ) : ℤ :=
  Int.tdiv q.num q.den

/-- Python `bool(x)` on a float value. -/
def pyBool (q : ℚ) : Bool :=
  q ≠ 0

/-! ## Line (type 110) -/

/-- Decoded `Line` entity. -/
structure Line where
  parameters : List String
  parameter_pointers : List Bool
  x1 : ℚ
  y1 : ℚ
  z1 : ℚ
  x2 : ℚ
  y2 : ℚ
  z2 : ℚ
  deriving DecidableEq, Repr

/-- `Line._add_parameters`: endpoints from tokens 1–6, no pointer slots. -/
def Line.add_parameters (parameters : List String) : Except PyErr Line := do
  let pp := List.replicate parameters.length false
  let x1 ← pyFloatAt parameters 1
  let y1 ← pyFloatAt parameters 2
  let z1 ← pyFloatAt parameters 3
  let x2 ← pyFloatAt parameters 4
  let y2 ← pyFloatAt parameters 5
  let z2 ← pyFloatAt parameters 6
  pure ⟨parameters, pp, x1, y1, z1, x2, y2, z2⟩

/-- The two decoded endpoints of a Line, for stating end-to-end examples. -/
def Line.endpoints (parameters : List String) :
    Except PyErr ((ℚ × ℚ × ℚ) × (ℚ × ℚ × ℚ)) :=
  (Line.add_parameters parameters).map
    (fun l => ((l.x1, l.y1, l.z1), (l.x2, l.y2, l.z2)))

/-! ## RationalBSplineCurve (type 126) -/

/-- Decoded `RationalBSplineCurve` entity.  The unit-normal fields are only
assigned in the planar branch of the source, hence `Option`. -/
structure RationalBSplineCurve where
  parameters : List String
  parameter_pointers : List Bool
  K : ℤ
  M : ℤ
  prop1 : ℤ
  prop2 : ℤ
  prop3 : ℤ
  prop4 : ℤ
  N : ℤ
  A : ℤ
  T : List ℚ
  W : List ℚ
  control_points : List (ℚ × ℚ × ℚ)
  V0 : ℚ
  V1 : ℚ
  planar_curve : Bool
  XNORM : Option ℚ
  YNORM : Option ℚ
  ZNORM : Option ℚ
  deriving DecidableEq, Repr, Inhabited

/--
`RationalBSplineCurve._add_parameters`, loop for loop:

    self.K = int(parameters[1]) ... self.prop4 = int(parameters[6])
    self.N = 1 + self.K - self.M
    self.A = self.N + 2 * self.M
    self.T: for i in range(7, 7 + self.A + 1)
    self.W: for i in range(self.A + 8, self.A + self.K + 8)
    self.control_points: for i in range(9+A+K, 9+A+4K+1, 3) reading i, i+1, i+2
    self.V0 = parse_float(parameters[12 + A + 4K]); V1 at 13 + A + 4K
    if len(parameters) > 14 + A + 4K + 1: unit normal at 14..16 + A + 4K
-/
def RationalBSplineCurve.add_parameters (parameters : List String) :
    Except PyErr RationalBSplineCurve := do
  let pp := List.replicate parameters.length false
  let K ← pyIntAt parameters 1
  let M ← pyIntAt parameters 2
  let prop1 ← pyIntAt parameters 3
  let prop2 ← pyIntAt parameters 4
  let prop3 ← pyIntAt parameters 5
  let prop4 ← pyIntAt parameters 6
  let N := 1 + K - M
  let A := N + 2 * M
  let T ← (pyRange 7 (7 + A + 1)).mapM (fun i => pyFloatAt parameters i)
  let W ← (pyRange (A + 8) (A + K + 8)).mapM (fun i => pyFloatAt parameters i)
  let control_points ←
    (pyRange3 (9 + A + K) (9 + A + 4 * K + 1)).mapM (fun i => do
      let x ← pyFloatAt parameters i
      let y ← pyFloatAt parameters (i + 1)
      let z ← pyFloatAt parameters (i + 2)
      pure (x, y, z))
  let V0 ← pyFloatAt parameters (12 + A + 4 * K)
  let V1 ← pyFloatAt parameters (13 + A + 4 * K)
  if (parameters.length : ℤ) > 14 + A + 4 * K + 1 then
    let xn ← pyFloatAt parameters (14 + A + 4 * K)
    let yn ← pyFloatAt parameters (15 + A + 4 * K)
    let zn ← pyFloatAt parameters (16 + A + 4 * K)
    pure ⟨parameters, pp, K, M, prop1, prop2, prop3, prop4, N, A, T, W,
      control_points, V0, V1, true, some xn, some yn, some zn⟩
  else
    pure ⟨parameters, pp, K, M, prop1, prop2, prop3, prop4, N, A, T, W,
      control_points, V0, V1, false, none, none, none⟩

/-- The weight vector that `RationalBSplineCurve.to_geomdl` hands to the NURBS
library: `curve.weights = self.W + [1]`. -/
def to_geomdl_weights (rb : RationalBSplineCurve) : List ℚ :=
  rb.W ++ [1]


/-! ## RationalBSplineSurface (type 128) -/

/-- `l.reshape(-1, 3)` on a flat numpy array: groups of three, failing when
the length is not a multiple of three. -/
def chunk3 : List ℚ → Option (List (ℚ × ℚ × ℚ))
  | [] => some []
  | a :: b :: c :: t => (chunk3 t).map (fun r => (a, b, c) :: r)
  | _ => none

/-- `reshape(-1, 3)` with numpy's `ValueError` on a bad length. -/
def reshape3 (l : List ℚ) : Except PyErr (List (ℚ × ℚ × ℚ)) :=
  match chunk3 l with
  | some r => .ok r
  | none => .error .valueError

/-- Flatten a row list back to the underlying scalars. -/
def flat3 : List (ℚ × ℚ × ℚ) → List ℚ
  | [] => []
  | (a, b, c) :: t => a :: b :: c :: flat3 t

/-- Decoded `RationalBSplineSurface` entity. -/
structure RationalBSplineSurface where
  parameters : List String
  parameter_pointers : List Bool
  k1 : ℤ
  k2 : ℤ
  m1 : ℤ
  m2 : ℤ
  flag1 : Bool
  flag2 : Bool
  flag3 : Bool
  flag4 : Bool
  flag5 : Bool
  knot1 : List ℚ
  knot2 : List ℚ
  weights : List ℚ
  cp : List (ℚ × ℚ × ℚ)
  u0 : ℚ
  u1 : ℚ
  v0 : ℚ
  v1 : ℚ
  deriving DecidableEq, Repr, Inhabited

/--
`RationalBSplineSurface._add_parameters`:

    parameters = np.array([parse_float(param) for param in input_parameters])
    self._k1 = int(parameters[1]) ... self._m2 = int(parameters[4])
    self._flag1 = bool(parameters[5]) ... self._flag5 = bool(parameters[9])
    self._knot1 = parameters[10 : 12 + k1 + m1]
    self._knot2 = parameters[12 + k1 + m1 : 14 + k2 + m1 + k1 + m2]
    st = 14 + k2 + m1 + k1 + m2; en = st + (1 + k2) * (1 + k1)
    self._weights = parameters[st:en]
    st = 14 + k2 + k1 + m1 + m2 + (1 + k2) * (1 + k1)
    en = st + 3 * (1 + k2) * (1 + k1)
    self._cp = parameters[st:en].reshape(-1, 3)
    self._u0 = parameters[en] ... self._v1 = parameters[en + 3]
-/
def RationalBSplineSurface.add_parameters (input_parameters : List String) :
    Except PyErr RationalBSplineSurface := do
  let parameters ← input_parameters.mapM pyFloatEx
  let pp := List.replicate parameters.length false
  let k1 := pyTrunc (← pyGet parameters 1)
  let k2 := pyTrunc (← pyGet parameters 2)
  let m1 := pyTrunc (← pyGet parameters 3)
  let m2 := pyTrunc (← pyGet parameters 4)
  let flag1 := pyBool (← pyGet parameters 5)
  let flag2 := pyBool (← pyGet parameters 6)
  let flag3 := pyBool (← pyGet parameters 7)
  let flag4 := pyBool (← pyGet parameters 8)
  let flag5 := pyBool (← pyGet parameters 9)
  let knot1 := pySlice parameters 10 (12 + k1 + m1)
  let knot2 := pySlice parameters (12 + k1 + m1) (14 + k2 + m1 + k1 + m2)
  let st := 14 + k2 + m1 + k1 + m2
  let en := st + (1 + k2) * (1 + k1)
  let weights := pySlice parameters st en
  let st2 := 14 + k2 + k1 + m1 + m2 + (1 + k2) * (1 + k1)
  let en2 := st2 + 3 * (1 + k2) * (1 + k1)
  let cp ← reshape3 (pySlice parameters st2 en2)
  let u0 ← pyGet parameters en2
  let u1 ← pyGet parameters (en2 + 1)
  let v0 ← pyGet parameters (en2 + 2)
  let v1 ← pyGet parameters (en2 + 3)
  pure ⟨input_parameters, pp, k1, k2, m1, m2, flag1, flag2, flag3, flag4,
    flag5, knot1, knot2, weights, cp, u0, u1, v0, v1⟩

/-! ## Subfigure (type 308) -/

/-- Decoded `Subfigure` entity. -/
structure Subfigure where
  parameters : List String
  parameter_pointers : List Bool
  Depth_of_subfigure : ℤ
  Subfigure_Name : String
  Number_of_entities : ℤ
  pointers : List ℤ
  deriving DecidableEq, Repr

/--
`Subfigure._add_parameters`:

    self.parameter_pointers = [False, False, False, False]
    self.Depth_of_subfigure = int(parameters[1])
    self.Subfigure_Name = str(parameters[2])
    self.Number_of_entities = int(parameters[3])
    self.pointers = [int(x) for x in parameters[4 : 4 + self.Number_of_entities]]
    self.parameter_pointers.extend([True] * self.Number_of_entities)
    self.parameter_pointers.extend([False] * (len(parameters) - len(self.parameter_pointers)))

The pointer list comes from a silently-clamping slice. -/
def Subfigure.add_parameters (parameters : List String) :
    Except PyErr Subfigure := do
  let depth ← pyIntAt parameters 1
  let name ← pyGet parameters 2
  let n ← pyIntAt parameters 3
  let ptrs ← (pySlice parameters 4 (4 + n)).mapM (fun x =>
    match intChars x.toList with
    | some z => Except.ok z
    | none => Except.error PyErr.valueError)
  let pp0 := [false, false, false, false] ++ List.replicate n.toNat true
  let pp := pp0 ++ List.replicate ((parameters.length : ℤ) - pp0.length).toNat false
  pure ⟨parameters, pp, depth, name, n, ptrs⟩

/-! ## Bounded_Surface (type 143) -/

/-- Decoded `Bounded_Surface` entity. -/
structure Bounded_Surface where
  parameters : List String
  parameter_pointers : List Bool
  btype : ℤ
  surface_pointer : ℤ
  N_boundaries : ℤ
  B : List ℤ
  deriving DecidableEq, Repr

/--
`Bounded_Surface._add_parameters`:

    self.parameter_pointers = [False, False, True, False]
    self.Type = int(parameters[1])
    self.surface_pointer = int(parameters[2])
    self.N_boundaries = int(parameters[3])
    self.B = []
    for ii in range(4, 4 + self.N_boundaries):
        self.B.append(int(parameters[ii]))
        self.parameter_pointers[True]

The last line of the loop body *reads* `parameter_pointers[1]` (Python treats
`True` as index 1 on a 4-element list, so no error is raised) and discards the
value; nothing is ever appended to `parameter_pointers`. -/
def Bounded_Surface.add_parameters (parameters : List String) :
    Except PyErr Bounded_Surface := do
  let btype ← pyIntAt parameters 1
  let surface_pointer ← pyIntAt parameters 2
  let nB ← pyIntAt parameters 3
  let B ← (pyRange 4 (4 + nB)).mapM (fun ii => pyIntAt parameters ii)
  pure ⟨parameters, [false, false, true, false], btype, surface_pointer, nB, B⟩

/-! ## Boundary (type 141) -/

/-- Decoded `Boundary` entity (the source assigns no `parameter_pointers`
at all for this class). -/
structure Boundary where
  parameters : List String
  btype : ℤ
  pref : ℤ
  surface_pointer : ℤ
  N : ℤ
  space_curves : List String
  Flags : List String
  model_curves : List (List String)
  deriving DecidableEq, Repr

/--
`unpack_boundary_curves_parameters`:

    space_curve = parameters[start_index]
    flag_1      = parameters[start_index+1]
    K1          = parameters[start_index+2]
    end_index   = start_index + 3 + K1
    list_curves = parameters[(start_index+3):end_index]
    return space_curve, flag_1, list_curves, end_index + 1

`K1` is the raw token — a `str`, never passed through `int()` — so the very
next line adds an `int` to a `str`, which raises `TypeError` in Python before
anything is returned. -/
def unpack_boundary_curves_parameters (parameters : List String)
    (start_index : ℤ) : Except PyErr (String × String × List String × ℤ) := do
  let _space_curve ← pyGet parameters start_index
  let _flag_1 ← pyGet parameters (start_index + 1)
  let _K1 ← pyGet parameters (start_index + 2)
  .error .typeError

/-- The `for _ in range(self.N)` loop of `Boundary._add_parameters`,
threading `index` through `unpack_boundary_curves_parameters`. -/
def boundaryLoop (parameters : List String) :
    ℕ → ℤ → Except PyErr (List (String × String × List String))
  | 0, _ => .ok []
  | n + 1, index => do
    let (sc, fl, lc, next) ← unpack_boundary_curves_parameters parameters index
    let rest ← boundaryLoop parameters n next
    .ok ((sc, fl, lc) :: rest)

/--
`Boundary._add_parameters`:

    self.Type = int(parameters[1]); self.pref = int(parameters[2])
    self.surface_pointer = int(parameters[3]); self.N = int(parameters[4])
    index = 5
    for _ in range(self.N):
        space_curve, flag_1, list_curves, index = \
            unpack_boundary_curves_parameters(parameters, index)
        ... append to space_curves / Flags / model_curves
-/
def Boundary.add_parameters (parameters : List String) :
    Except PyErr Boundary := do
  let btype ← pyIntAt parameters 1
  let pref ← pyIntAt parameters 2
  let surface_pointer ← pyIntAt parameters 3
  let N ← pyIntAt parameters 4
  let groups ← boundaryLoop parameters N.toNat 5
  pure ⟨parameters, btype, pref, surface_pointer, N,
    groups.map (fun g => g.1), groups.map (fun g => g.2.1),
    groups.map (fun g => g.2.2)⟩

/--
`Boundary.get_space_curves`:

    scs = []
    for sc in self.space_curves:
        scs.append(self.iges.from_pointer(sc))
    return sc

The collected list `scs` is discarded; the function returns the loop variable,
i.e. the *last stored pointer, unresolved*.  On an empty list the loop never
binds `sc` and Python raises `NameError`. -/
def Boundary.get_space_curves {α β : Type} (from_pointer : β → α)
    (space_curves : List β) : Except PyErr β :=
  let _scs := space_curves.map from_pointer
  match space_curves.getLast? with
  | some sc => .ok sc
  | none => .error .nameError

/-- `Boundary.get_model_curves` has the same shape as `get_space_curves`,
over `model_curves`, returning the loop variable `mc`. -/
def Boundary.get_model_curves {α β : Type} (from_pointer : β → α)
    (model_curves : List β) : Except PyErr β :=
  let _mcs := model_curves.map from_pointer
  match model_curves.getLast? with
  | some mc => .ok mc
  | none => .error .nameError

/-- Modelled from the spec (the intended contract of §4/§8, stated for
comparison): the boundary aggregation accessors return *all* collected
resolved curves, one per stored reference, in stored order. -/
def Boundary.get_curves_spec {α β : Type} (from_pointer : β → α)
    (curves : List β) : List α :=
  curves.map from_pointer


/-! ## Concrete token lists used in the examples and counterexamples -/

/-- A well-formed RationalBSplineCurve token list with `K = 3`, `M = 3`
(`N = 1`, `A = 7`): 8 knot tokens, the 4 weight tokens `2 3 4 5`, 4 control
points and the two parameter-range tokens — 33 tokens in total. -/
def rbscTokens : List String :=
  ["126", "3", "3", "0", "0", "1", "0",
   "0", "0", "0", "0", "1", "1", "1", "1",
   "2", "3", "4", "5",
   "1", "0", "0", "1", "1", "0", "0", "1", "0", "0", "0", "1",
   "0", "1"]

/-- `rbscTokens` with its last token removed (32 tokens). -/
def rbscShortTokens : List String :=
  rbscTokens.take 32

/-- A Subfigure token list declaring `N = 2` associated entities but carrying
only one pointer token. -/
def subfigTokens : List String :=
  ["308", "0", "fig", "2", "5"]

/-- A Bounded_Surface token list with one boundary entity: type 0, surface
pointer 5, `N = 1`, boundary pointer 7 at position 4. -/
def boundedSurfaceTokens : List String :=
  ["143", "0", "5", "1", "7"]

/-- A Boundary token list laid out exactly as the source's own docstring
describes: type 0, pref 0, surface pointer 2, `N = 1`, then one group
(model curve 5, orientation flag 0, `K1 = 1`, parameter curve 7). -/
def boundaryTokens : List String :=
  ["141", "0", "0", "2", "1", "5", "0", "1", "7"]

/-- The token list of the end-to-end Line scenario, exactly as claimed. -/
def lineTokensClaimed : List String :=
  ["110", "1", "1", "2", "3", "4", "5", "6"]

/-- A seven-token Line record: type code then the six endpoint coordinates. -/
def lineTokens : List String :=
  ["110", "1", "2", "3", "4", "5", "6"]

/-- A well-formed RationalBSplineSurface token list with
`K1 = K2 = M1 = M2 = 0`: two knot pairs, one weight, one control point and
the four parameter-range tokens — 22 tokens. -/
def rbssTokens : List String :=
  ["128", "0", "0", "0", "0", "0", "0", "0", "0", "0",
   "0", "1", "0", "1", "1", "1", "2", "3", "0", "1", "0", "1"]

/-- The parsed values of `rbssTokens`. -/
def rbssValues : List ℚ :=
  [128, 0, 0, 0, 0, 0, 0, 0, 0, 0, 0, 1, 0, 1, 1, 1, 2, 3, 0, 1, 0, 1]

/-- The decoded form of `rbscTokens` (used to instantiate theorems about
decoded curves at a concrete input). -/
def rbscDecoded : RationalBSplineCurve :=
  ((RationalBSplineCurve.add_parameters rbscTokens).toOption).getD default

/-- The substitution of the numeric round-trip property: every `E` becomes
`D`. -/
def subED (c : Char) : Char :=
  if c.toNat = 69 then 'D' else c

/-- The same substitution with a lower-case result: every `E` becomes `d`. -/
def subEd (c : Char) : Char :=
  if c.toNat = 69 then 'd' else c

/-- `s` with every `E` replaced by `D`. -/
def replaceED (s : String) : String :=
  mapStr subED s

/-- `s` with every `E` replaced by `d`. -/
def replaceEd (s : String) : String :=
  mapStr subEd s

/-! ## Helper lemmas: `Except`, `mapM`, indexing, ranges, slices -/

theorem ok_bind {ε α β : Type} (x : α) (f : α → Except ε β) :
    (Except.ok x >>= f) = f x := rfl

theorem error_bind {ε α β : Type} (e : ε) (f : α → Except ε β) :
    ((Except.error e : Except ε α) >>= f) = Except.error e := rfl

theorem pure_eq_ok {ε α : Type} (x : α) :
    (pure x : Except ε α) = Except.ok x := rfl

theorem mapM_ok_of_forall {ε α β : Type} (f : α → Except ε β) :
    ∀ xs : List α, (∀ x ∈ xs, ∃ y, f x = Except.ok y) →
      ∃ ys, xs.mapM f = Except.ok ys ∧ ys.length = xs.length := by
  intro xs
  induction xs with
  | nil => intro _; exact ⟨[], rfl, rfl⟩
  | cons a t ih =>
    intro h
    obtain ⟨y, hy⟩ := h a (List.mem_cons_self a t)
    obtain ⟨ys, hys, hlen⟩ := ih (fun x hx => h x (List.mem_cons_of_mem a hx))
    refine ⟨y :: ys, ?_, by simp [hlen]⟩
    rw [List.mapM_cons, hy, hys]
    rfl

theorem mapM_ok_length {ε α β : Type} (f : α → Except ε β) :
    ∀ (xs : List α) (ys : List β), xs.mapM f = Except.ok ys →
      ys.length = xs.length := by
  intro xs
  induction xs with
  | nil =>
    intro ys h
    rw [List.mapM_nil, pure_eq_ok] at h
    cases h
    rfl
  | cons a t ih =>
    intro ys h
    rw [List.mapM_cons] at h
    cases ha : f a with
    | error e => rw [ha] at h; exact absurd h (by simp [error_bind])
    | ok y =>
      rw [ha, ok_bind] at h
      cases ht : t.mapM f with
      | error e => rw [ht] at h; exact absurd h (by simp [error_bind])
      | ok ys0 =>
        rw [ht, ok_bind] at h
        cases h
        simp [ih ys0 ht]

theorem pyGet_isOk {α : Type} (l : List α) (i : ℤ) (h0 : 0 ≤ i)
    (h : i < (l.length : ℤ)) : ∃ x, pyGet l i = Except.ok x := by
  have hni : ¬ i < 0 := by omega
  have hlt : i.toNat < l.length := by omega
  simp only [pyGet, if_neg hni, if_pos h0]
  rw [List.get?_eq_get hlt]
  exact ⟨_, rfl⟩

theorem isOk_exists {ε α : Type} (e : Except ε α) (h : e.isOk = true) :
    ∃ x, e = Except.ok x := by
  cases e with
  | error _ => simp [Except.isOk, Except.toBool] at h
  | ok x => exact ⟨x, rfl⟩

theorem length_pyRange (a b : ℤ) : (pyRange a b).length = (b - a).toNat := by
  rw [pyRange, List.length_map, List.length_range]

theorem mem_pyRange {a b i : ℤ} :
    i ∈ pyRange a b ↔ ∃ n : ℕ, n < (b - a).toNat ∧ i = a + n := by
  rw [pyRange, List.mem_map]
  constructor
  · rintro ⟨n, hn, rfl⟩
    exact ⟨n, List.mem_range.1 hn, rfl⟩
  · rintro ⟨n, hn, rfl⟩
    exact ⟨n, List.mem_range.2 hn, rfl⟩

theorem mem_pyRange_bounds {a b i : ℤ} (h : i ∈ pyRange a b) :
    a ≤ i ∧ i < b := by
  obtain ⟨n, hn, rfl⟩ := mem_pyRange.1 h
  omega

theorem length_pyRange3 (a b : ℤ) :
    (pyRange3 a b).length = ((b - a).toNat + 2) / 3 := by
  rw [pyRange3, List.length_map, List.length_range]

theorem mem_pyRange3 {a b i : ℤ} :
    i ∈ pyRange3 a b ↔
      ∃ n : ℕ, n < ((b - a).toNat + 2) / 3 ∧ i = a + 3 * n := by
  rw [pyRange3, List.mem_map]
  constructor
  · rintro ⟨n, hn, rfl⟩
    exact ⟨n, List.mem_range.1 hn, rfl⟩
  · rintro ⟨n, hn, rfl⟩
    exact ⟨n, List.mem_range.2 hn, rfl⟩

theorem length_pySlice {α : Type} (l : List α) (a b : ℤ) (h0 : 0 ≤ a)
    (hab : a ≤ b) (hb : b ≤ (l.length : ℤ)) :
    (pySlice l a b).length = (b - a).toNat := by
  unfold pySlice
  simp only
  rw [if_neg (by omega : ¬ a < 0), if_neg (by omega : ¬ b < 0)]
  rw [min_eq_left (by omega : a ≤ (l.length : ℤ)),
    min_eq_left (by omega : b ≤ (l.length : ℤ))]
  rw [List.length_take, List.length_drop]
  omega

theorem chunk3_of_length (cnt : ℕ) :
    ∀ l : List ℚ, l.length = 3 * cnt →
      ∃ r, chunk3 l = some r ∧ r.length = cnt ∧ flat3 r = l := by
  induction cnt with
  | zero =>
    intro l h
    rw [List.length_eq_zero] at h
    subst h
    exact ⟨[], rfl, rfl, rfl⟩
  | succ n ih =>
    intro l h
    match l with
    | [] => simp at h
    | [a] => simp at h; omega
    | [a, b] => simp at h; omega
    | a :: b :: c :: t =>
      have ht : t.length = 3 * n := by simp at h; omega
      obtain ⟨r, hr, hlen, hflat⟩ := ih t ht
      refine ⟨(a, b, c) :: r, ?_, by simp [hlen], by simp [flat3, hflat]⟩
      show (chunk3 t).map (fun r => (a, b, c) :: r) = some ((a, b, c) :: r)
      rw [hr]
      rfl

theorem pyTrunc_intCast (n : ℤ) : pyTrunc (n : ℚ) = n := by
  unfold pyTrunc
  rw [Rat.num_intCast, Rat.den_intCast]
  simp [Int.tdiv_one]

/-! ## Helper lemmas: characters and the float grammar under normalization -/

theorem toNat_ofNat_of_le (n : ℕ) (h : n ≤ 122) : (Char.ofNat n).toNat = n := by
  have hv : n.isValidChar := Or.inl (by omega)
  rw [Char.ofNat, dif_pos hv]
  rfl

theorem toNat_pyLower (c : Char) :
    (pyLower c).toNat =
      if 65 ≤ c.toNat ∧ c.toNat ≤ 90 then c.toNat + 32 else c.toNat := by
  unfold pyLower
  split
  · next hc => exact toNat_ofNat_of_le _ (by omega)
  · rfl

theorem isDig_toNat {c : Char} :
    isDig c = true ↔ 48 ≤ c.toNat ∧ c.toNat ≤ 57 := by
  simp [isDig]

theorem dNorm_of_isDig {c : Char} (h : isDig c = true) : dNorm c = c := by
  obtain ⟨h1, h2⟩ := isDig_toNat.1 h
  have hl : pyLower c = c := by
    unfold pyLower
    rw [if_neg (by omega)]
  unfold dNorm
  rw [hl, if_neg (by omega : ¬ c.toNat = 100)]

theorem toNat_dNorm (c : Char) :
    (dNorm c).toNat =
      if (pyLower c).toNat = 100 then 101 else (pyLower c).toNat := by
  unfold dNorm
  by_cases h : (pyLower c).toNat = 100
  · rw [if_pos h, if_pos h]
    rfl
  · rw [if_neg h, if_neg h]

theorem isDig_dNorm (c : Char) : isDig (dNorm c) = isDig c := by
  by_cases h : isDig c = true
  · rw [dNorm_of_isDig h]
  · rw [Bool.not_eq_true] at h
    rw [h, Bool.eq_false_iff]
    intro habs
    obtain ⟨ha, hb⟩ := isDig_toNat.1 habs
    have hc : ¬ (48 ≤ c.toNat ∧ c.toNat ≤ 57) := by
      intro hcc
      have := isDig_toNat.2 hcc
      rw [h] at this
      exact Bool.false_ne_true this
    rw [toNat_dNorm, toNat_pyLower] at ha hb
    by_cases hu : 65 ≤ c.toNat ∧ c.toNat ≤ 90
    · rw [if_pos hu] at ha hb
      by_cases h100 : c.toNat + 32 = 100
      · rw [if_pos h100] at ha hb
        omega
      · rw [if_neg h100] at ha hb
        omega
    · rw [if_neg hu] at ha hb
      by_cases h100 : c.toNat = 100
      · rw [if_pos h100] at ha hb
        omega
      · rw [if_neg h100] at ha hb
        omega

theorem toNat_dNorm_sign (c : Char) (k : ℕ) (hk : k = 43 ∨ k = 45 ∨ k = 46) :
    (dNorm c).toNat = k ↔ c.toNat = k := by
  rw [toNat_dNorm, toNat_pyLower]
  by_cases hu : 65 ≤ c.toNat ∧ c.toNat ≤ 90
  · rw [if_pos hu]
    by_cases h100 : c.toNat + 32 = 100
    · rw [if_pos h100]
      constructor <;> intro <;> omega
    · rw [if_neg h100]
      constructor <;> intro <;> omega
  · rw [if_neg hu]
    by_cases h100 : c.toNat = 100
    · rw [if_pos h100]
      constructor <;> intro <;> omega
    · rw [if_neg h100]

theorem toNat_dNorm_exp (c : Char) (h : c.toNat = 101 ∨ c.toNat = 69) :
    (dNorm c).toNat = 101 := by
  rw [toNat_dNorm, toNat_pyLower]
  rcases h with h | h
  · rw [if_neg (by omega : ¬ (65 ≤ c.toNat ∧ c.toNat ≤ 90))]
    rw [if_neg (by omega : ¬ c.toNat = 100)]
    exact h
  · rw [if_pos (by omega : 65 ≤ c.toNat ∧ c.toNat ≤ 90)]
    rw [if_neg (by omega : ¬ c.toNat + 32 = 100)]
    omega

theorem takeWhile_isDig_map_dNorm (cs : List Char) :
    (cs.map dNorm).takeWhile isDig = cs.takeWhile isDig := by
  induction cs with
  | nil => rfl
  | cons c t ih =>
    simp only [List.map_cons, List.takeWhile_cons, isDig_dNorm]
    by_cases h : isDig c = true
    · rw [h]
      simp only [ih, dNorm_of_isDig h]
    · rw [Bool.not_eq_true] at h
      rw [h]
      simp

theorem dropWhile_isDig_map_dNorm (cs : List Char) :
    (cs.map dNorm).dropWhile isDig = (cs.dropWhile isDig).map dNorm := by
  induction cs with
  | nil => rfl
  | cons c t ih =>
    simp only [List.map_cons, List.dropWhile_cons, isDig_dNorm]
    by_cases h : isDig c = true
    · rw [h]
      simpa using ih
    · rw [Bool.not_eq_true] at h
      rw [h]
      simp

theorem map_dNorm_of_all_isDig {cs : List Char} (h : cs.all isDig = true) :
    cs.map dNorm = cs := by
  induction cs with
  | nil => rfl
  | cons c t ih =>
    rw [List.all_cons, Bool.and_eq_true] at h
    rw [List.map_cons, dNorm_of_isDig h.1, ih h.2]

theorem expDigs_map_dNorm {cs : List Char} {m q : ℚ} {pos : Bool}
    (h : expDigs cs m pos = some q) :
    expDigs (cs.map dNorm) m pos = some q := by
  unfold expDigs at h ⊢
  by_cases hnil : cs = []
  · rw [if_pos hnil] at h
    exact absurd h (by simp)
  · rw [if_neg hnil] at h
    by_cases hall : cs.all isDig = true
    · rw [map_dNorm_of_all_isDig hall, if_neg hnil]
      exact h
    · rw [Bool.not_eq_true] at hall
      rw [hall] at h
      exact absurd h (by simp)

theorem expTail_map_dNorm {cs : List Char} {m q : ℚ}
    (h : expTail cs m = some q) :
    expTail (cs.map dNorm) m = some q := by
  cases cs with
  | nil => exact absurd h (by simp [expTail])
  | cons c r =>
    rw [List.map_cons]
    simp only [expTail] at h ⊢
    by_cases h43 : c.toNat = 43
    · rw [if_pos h43] at h
      rw [if_pos ((toNat_dNorm_sign c 43 (Or.inl rfl)).2 h43)]
      exact expDigs_map_dNorm h
    · rw [if_neg h43] at h
      rw [if_neg (fun hx => h43 ((toNat_dNorm_sign c 43 (Or.inl rfl)).1 hx))]
      by_cases h45 : c.toNat = 45
      · rw [if_pos h45] at h
        rw [if_pos ((toNat_dNorm_sign c 45 (Or.inr (Or.inl rfl))).2 h45)]
        exact expDigs_map_dNorm h
      · rw [if_neg h45] at h
        rw [if_neg (fun hx => h45 ((toNat_dNorm_sign c 45 (Or.inr (Or.inl rfl))).1 hx))]
        rw [← List.map_cons]
        exact expDigs_map_dNorm h

theorem afterMant_map_dNorm {cs : List Char} {m q : ℚ}
    (h : afterMant cs m = some q) :
    afterMant (cs.map dNorm) m = some q := by
  cases cs with
  | nil => exact h
  | cons c r =>
    rw [List.map_cons]
    simp only [afterMant] at h ⊢
    by_cases he : c.toNat = 101 ∨ c.toNat = 69
    · rw [if_pos he] at h
      rw [if_pos (Or.inl (toNat_dNorm_exp c he))]
      exact expTail_map_dNorm h
    · rw [if_neg he] at h
      exact absurd h (by simp)

theorem floatRest_map_dNorm {ds ip : List Char} {q : ℚ}
    (h : floatRest ds ip = some q) :
    floatRest (ds.map dNorm) ip = some q := by
  cases ds with
  | nil => exact h
  | cons c r2 =>
    rw [List.map_cons]
    simp only [floatRest] at h ⊢
    by_cases h46 : c.toNat = 46
    · rw [if_pos h46] at h
      rw [if_pos ((toNat_dNorm_sign c 46 (Or.inr (Or.inr rfl))).2 h46)]
      rw [takeWhile_isDig_map_dNorm, dropWhile_isDig_map_dNorm]
      by_cases hmt : ip = [] ∧ r2.takeWhile isDig = []
      · rw [if_pos hmt] at h
        exact absurd h (by simp)
      · rw [if_neg hmt] at h
        rw [if_neg hmt]
        exact afterMant_map_dNorm h
    · rw [if_neg h46] at h
      rw [if_neg (fun hx => h46 ((toNat_dNorm_sign c 46 (Or.inr (Or.inr rfl))).1 hx))]
      by_cases hip : ip = []
      · rw [if_pos hip] at h
        exact absurd h (by simp)
      · rw [if_neg hip] at h
        rw [if_neg hip, ← List.map_cons]
        exact afterMant_map_dNorm h

theorem floatMag_map_dNorm {cs : List Char} {q : ℚ}
    (h : floatMag cs = some q) :
    floatMag (cs.map dNorm) = some q := by
  unfold floatMag at h ⊢
  rw [takeWhile_isDig_map_dNorm, dropWhile_isDig_map_dNorm]
  exact floatRest_map_dNorm h

theorem floatChars_map_dNorm {cs : List Char} {q : ℚ}
    (h : floatChars cs = some q) :
    floatChars (cs.map dNorm) = some q := by
  cases cs with
  | nil => exact absurd h (by simp [floatChars])
  | cons c r =>
    rw [List.map_cons]
    simp only [floatChars] at h ⊢
    by_cases h43 : c.toNat = 43
    · rw [if_pos h43] at h
      rw [if_pos ((toNat_dNorm_sign c 43 (Or.inl rfl)).2 h43)]
      exact floatMag_map_dNorm h
    · rw [if_neg h43] at h
      rw [if_neg (fun hx => h43 ((toNat_dNorm_sign c 43 (Or.inl rfl)).1 hx))]
      by_cases h45 : c.toNat = 45
      · rw [if_pos h45] at h
        rw [if_pos ((toNat_dNorm_sign c 45 (Or.inr (Or.inl rfl))).2 h45)]
        rw [Option.map_eq_some'] at h
        obtain ⟨q0, hq0, rfl⟩ := h
        rw [floatMag_map_dNorm hq0]
        rfl
      · rw [if_neg h45] at h
        rw [if_neg (fun hx => h45 ((toNat_dNorm_sign c 45 (Or.inr (Or.inl rfl))).1 hx))]
        rw [← List.map_cons]
        exact floatMag_map_dNorm h

theorem dNorm_subED (c : Char) : dNorm (subED c) = dNorm c := by
  by_cases h : c.toNat = 69
  · have h2 : dNorm c = 'e' := by
      have h1 : pyLower c = Char.ofNat 101 := by
        unfold pyLower
        rw [if_pos (by omega : 65 ≤ c.toNat ∧ c.toNat ≤ 90), h]
      unfold dNorm
      rw [h1]
      rw [if_neg (by decide : ¬ (Char.ofNat 101).toNat = 100)]
    unfold subED
    rw [if_pos h, h2]
    decide
  · unfold subED
    rw [if_neg h]

theorem dNorm_subEd (c : Char) : dNorm (subEd c) = dNorm c := by
  by_cases h : c.toNat = 69
  · have h2 : dNorm c = 'e' := by
      have h1 : pyLower c = Char.ofNat 101 := by
        unfold pyLower
        rw [if_pos (by omega : 65 ≤ c.toNat ∧ c.toNat ≤ 90), h]
      unfold dNorm
      rw [h1]
      rw [if_neg (by decide : ¬ (Char.ofNat 101).toNat = 100)]
    unfold subEd
    rw [if_pos h, h2]
    decide
  · unfold subEd
    rw [if_neg h]

theorem toList_mapStr (f : Char → Char) (s : String) :
    (mapStr f s).toList = s.toList.map f := rfl

/-! ## Auxiliary results about `parse_float` under exponent substitution -/

theorem map_comp_dNorm (g : Char → Char) (hg : ∀ c, dNorm (g c) = dNorm c) :
    ∀ l : List Char, (l.map g).map dNorm = l.map dNorm := by
  intro l
  induction l with
  | nil => rfl
  | cons c t ih => simp only [List.map_cons, hg, ih]

theorem parse_float_of_sub (g : Char → Char) (hg : ∀ c, dNorm (g c) = dNorm c)
    (s : String) (q : ℚ) (h : floatOfString s = some q) :
    parse_float (mapStr g s) = some q := by
  have hnorm : floatChars (s.toList.map dNorm) = some q := floatChars_map_dNorm h
  have hcomp : (mapStr g s).toList.map dNorm = s.toList.map dNorm := by
    rw [toList_mapStr]
    exact map_comp_dNorm g hg s.toList
  cases hh : floatOfString (mapStr g s) with
  | none =>
    simp only [parse_float, hh]
    show floatOfString (dToE (mapStr g s)) = some q
    unfold floatOfString dToE
    rw [toList_mapStr, hcomp]
    exact hnorm
  | some q2 =>
    have h2 : floatChars ((mapStr g s).toList.map dNorm) = some q2 :=
      floatChars_map_dNorm hh
    rw [hcomp, hnorm] at h2
    have hq : q2 = q := (Option.some.inj h2).symm
    simp only [parse_float, hh, hq]

theorem mantExp_1_2_3 : mantVal ['1'] ['2'] * 10 ^ natVal ['3'] = 1200 := by
  have h1 : natVal ['1'] = 1 := by decide
  have h2 : natVal ['2'] = 2 := by decide
  have h3 : natVal ['3'] = 3 := by decide
  rw [mantVal, h1, h2, h3]
  norm_num

theorem floatOfString_12E3 : floatOfString "1.2E3" = some 1200 := by
  have h : floatOfString "1.2E3" =
      some (mantVal ['1'] ['2'] * 10 ^ natVal ['3']) := rfl
  rw [h, mantExp_1_2_3]

theorem parse_float_12E3 : parse_float "1.2E3" = some 1200 := by
  have h : parse_float "1.2E3" =
      some (mantVal ['1'] ['2'] * 10 ^ natVal ['3']) := rfl
  rw [h, mantExp_1_2_3]

theorem parse_float_12D3 : parse_float "1.2D3" = some 1200 := by
  have h : parse_float "1.2D3" =
      some (mantVal ['1'] ['2'] * 10 ^ natVal ['3']) := rfl
  rw [h, mantExp_1_2_3]

theorem parse_float_12d3 : parse_float "1.2d3" = some 1200 := by
  have h : parse_float "1.2d3" =
      some (mantVal ['1'] ['2'] * 10 ^ natVal ['3']) := rfl
  rw [h, mantExp_1_2_3]

/--
C7 (confirmed): for every string that is a valid standard float literal,
`parse_float` applied to the string with `E` replaced by `D` succeeds and
returns the same value as `parse_float` on the string itself; the recovery
substitution is case-insensitive (`E → d` behaves the same); `"1.2D3"`,
`"1.2E3"` and `"1.2d3"` all parse to 1200; and `parse_float` fails exactly
when both the standard parse and the lower-cased `d → e` substituted parse
fail. -/
theorem parse_float_legacy_exponent_roundtrip :
    (∀ s q, floatOfString s = some q →
      parse_float (replaceED s) = some q ∧ parse_float (replaceEd s) = some q ∧
        parse_float s = some q)
    ∧ parse_float "1.2D3" = some 1200
    ∧ parse_float "1.2E3" = some 1200
    ∧ parse_float "1.2d3" = some 1200
    ∧ (∀ s, parse_float s = none ↔
        floatOfString s = none ∧ floatOfString (dToE s) = none) := by
  refine ⟨?_, parse_float_12D3, parse_float_12E3, parse_float_12d3, ?_⟩
  · intro s q h
    refine ⟨parse_float_of_sub subED dNorm_subED s q h,
      parse_float_of_sub subEd dNorm_subEd s q h, ?_⟩
    simp only [parse_float, h]
  · intro s
    cases hh : floatOfString s with
    | some q => simp [parse_float, hh]
    | none => simp [parse_float, hh]

/-- Witness for C7 at the concrete literal `"1.2E3"`: the hypothesis (a valid
standard float literal) and the substituted parse both evaluate. -/
theorem parse_float_legacy_exponent_roundtrip_witness :
    floatOfString "1.2E3" = some 1200 ∧
      parse_float (replaceED "1.2E3") = some 1200 :=
  ⟨floatOfString_12E3,
    (parse_float_legacy_exponent_roundtrip.1 "1.2E3" 1200 floatOfString_12E3).1⟩

/--
C1 (code_bug): on the spec's own `K = 3, M = 3` example list, the decoded
weights array `W` holds only `K = 3` weights — the tokens `2 3 4` at positions
15–17 — and not the `K + 1 = 4` weight tokens `2 3 4 5` that lie between the
knot sequence and the control points; the loop
`range(self.A + 8, self.A + self.K + 8)` is one short and position 18 is never
read. -/
theorem rbsc_weight_count_bug :
    (RationalBSplineCurve.add_parameters rbscTokens).map
        (fun rb => (rb.K, rb.W)) = Except.ok (3, [2, 3, 4]) ∧
      (RationalBSplineCurve.add_parameters rbscTokens).map
        (fun rb => rb.W.length) ≠ Except.ok 4 := by decide

/--
C2 (code_bug): no decoder validates the token-list length and no error
carrying declared-vs-available counts exists.  A Subfigure list declaring
`N = 2` entities with only one pointer token decodes *successfully* with a
silently truncated pointer array, and the spec's own shortened
RationalBSplineCurve list fails with a bare `IndexError` instead of a
count-carrying error. -/
theorem decoder_shortfall_no_count_error :
    (Subfigure.add_parameters subfigTokens).map
        (fun s => (s.Number_of_entities, s.pointers)) = Except.ok (2, [5]) ∧
      RationalBSplineCurve.add_parameters rbscShortTokens =
        Except.error PyErr.indexError := by decide

/--
C3 (code_bug): decoding a Bounded_Surface with one boundary pointer leaves
`parameter_pointers` at its initial four entries `[F, F, T, F]` — the
boundary-pointer slot at position 4 is never marked `true` and the array is
shorter than the five-token list, because `self.parameter_pointers[True]`
reads index 1 instead of appending. -/
theorem bounded_surface_pointer_slots_bug :
    (Bounded_Surface.add_parameters boundedSurfaceTokens).map
        (fun b => b.parameter_pointers) =
      Except.ok [false, false, true, false] ∧
      boundedSurfaceTokens.length = 5 := by decide

/--
C4 (code_bug): `Boundary.get_space_curves` and `Boundary.get_model_curves`
return the loop variable — the *last stored pointer, unresolved* — instead of
the collected list of resolved curves that the intended contract
(`Boundary.get_curves_spec`) returns. -/
theorem boundary_accessors_return_last_pointer :
    Boundary.get_space_curves (fun p : ℤ => (p, true)) [3, 7] = Except.ok 7 ∧
      Boundary.get_curves_spec (fun p : ℤ => (p, true)) [3, 7] =
        [(3, true), (7, true)] ∧
      Boundary.get_model_curves
        (fun l : List ℤ => l.map (fun p => (p, true))) [[3], [7]] =
        Except.ok [7] ∧
      Boundary.get_curves_spec
        (fun l : List ℤ => l.map (fun p => (p, true))) [[3], [7]] =
        [[(3, true)], [(7, true)]] := by decide

/--
C5 (code_bug): decoding a Boundary whose curve count is `N = 1`, laid out
exactly as the source's docstring describes, raises `TypeError`:
`unpack_boundary_curves_parameters` adds the raw `K1` token (a string) to an
integer index.  No group is ever stored. -/
theorem boundary_decode_type_error :
    Boundary.add_parameters boundaryTokens = Except.error PyErr.typeError ∧
      unpack_boundary_curves_parameters boundaryTokens 5 =
        Except.error PyErr.typeError := by decide

/--
C6 counterexample: the exact eight-token list of the claim decodes to
endpoints `(1, 1, 2)` and `(3, 4, 5)` — token 7 (`"6"`) is never read —
not to `(1, 2, 3)` and `(4, 5, 6)`. -/
theorem line_endpoints_claimed_tokens :
    Line.endpoints lineTokensClaimed = Except.ok ((1, 1, 2), (3, 4, 5)) ∧
      Line.endpoints lineTokensClaimed ≠ Except.ok ((1, 2, 3), (4, 5, 6)) := by
  decide

/--
C6 (corrected): the seven-token Line record `110, 1, 2, 3, 4, 5, 6` — the
type code followed by the six coordinates — decodes to the endpoints
`(1, 2, 3)` and `(4, 5, 6)`. -/
theorem line_endpoints_seven_tokens :
    Line.endpoints lineTokens = Except.ok ((1, 2, 3), (4, 5, 6)) := by decide

/--
C10 (confirmed): for every decoded RationalBSplineCurve, the weight vector
handed to the NURBS library by `to_geomdl` is the decoded `W` with the
constant 1 appended, so its final entry is always 1 regardless of the
last weight token of the file. -/
theorem rbsc_to_geomdl_weights_appends_one (params : List String)
    (rb : RationalBSplineCurve)
    (h : RationalBSplineCurve.add_parameters params = Except.ok rb) :
    to_geomdl_weights rb = rb.W ++ [1] ∧
      (RationalBSplineCurve.add_parameters params).map to_geomdl_weights =
        Except.ok (rb.W ++ [1]) ∧
      (to_geomdl_weights rb).getLast? = some 1 ∧
      (to_geomdl_weights rb).length = rb.W.length + 1 := by
  refine ⟨rfl, ?_, ?_, by simp [to_geomdl_weights]⟩
  · rw [h]
    rfl
  · unfold to_geomdl_weights
    exact List.getLast?_concat _

/-- Witness for C10 at `rbscTokens`, whose last weight token is `"5"`:
the decoded curve still hands the NURBS library a final weight of 1. -/
theorem rbsc_to_geomdl_weights_appends_one_witness :
    RationalBSplineCurve.add_parameters rbscTokens = Except.ok rbscDecoded ∧
      (to_geomdl_weights rbscDecoded = rbscDecoded.W ++ [1] ∧
        (RationalBSplineCurve.add_parameters rbscTokens).map to_geomdl_weights =
          Except.ok (rbscDecoded.W ++ [1]) ∧
        (to_geomdl_weights rbscDecoded).getLast? = some 1 ∧
        (to_geomdl_weights rbscDecoded).length = rbscDecoded.W.length + 1) :=
  ⟨by decide,
    rbsc_to_geomdl_weights_appends_one rbscTokens rbscDecoded (by decide)⟩

/--
C8 (confirmed): decoding a well-formed RationalBSplineCurve token list with
upper index `K` and degree `M` succeeds; the knot sequence has exactly
`N + 2M + 1` elements (`N = 1 + K - M`), the control-point list has exactly
`K + 1` points of three numbers each, `V0` and `V1` are parsed from the two
token positions following the last control-point token (`12 + A + 4K` and
`13 + A + 4K`), and the unit normal is decoded with `planar_curve = true`
exactly when the token list is long enough (`17 + A + 4K` tokens) to contain
it, `planar_curve = false` otherwise. -/
theorem rbsc_wellformed_decode
    (params : List String) (K M : ℕ)
    (hK : pyIntAt params 1 = Except.ok (K : ℤ))
    (hM : pyIntAt params 2 = Except.ok (M : ℤ))
    (hp3 : ∃ z, pyIntAt params 3 = Except.ok z)
    (hp4 : ∃ z, pyIntAt params 4 = Except.ok z)
    (hp5 : ∃ z, pyIntAt params 5 = Except.ok z)
    (hp6 : ∃ z, pyIntAt params 6 = Except.ok z)
    (hfl : ∀ i : ℕ, i < params.length → 7 ≤ i →
        (pyFloatAt params (i : ℤ)).isOk = true)
    (hlen : (params.length : ℤ) = 14 + (1 + K + M) + 4 * K ∨
        (params.length : ℤ) = 17 + (1 + K + M) + 4 * K) :
    ∃ rb, RationalBSplineCurve.add_parameters params = Except.ok rb ∧
      rb.K = K ∧ rb.M = M ∧
      rb.N = 1 + rb.K - rb.M ∧ rb.A = rb.N + 2 * rb.M ∧
      (rb.T.length : ℤ) = rb.N + 2 * rb.M + 1 ∧
      rb.control_points.length = K + 1 ∧
      pyFloatAt params (12 + rb.A + 4 * rb.K) = Except.ok rb.V0 ∧
      pyFloatAt params (13 + rb.A + 4 * rb.K) = Except.ok rb.V1 ∧
      (rb.planar_curve = true ↔
        (params.length : ℤ) = 17 + rb.A + 4 * rb.K) ∧
      (rb.planar_curve = true →
        ∃ xn yn zn, rb.XNORM = some xn ∧ rb.YNORM = some yn ∧
          rb.ZNORM = some zn ∧
          pyFloatAt params (14 + rb.A + 4 * rb.K) = Except.ok xn ∧
          pyFloatAt params (15 + rb.A + 4 * rb.K) = Except.ok yn ∧
          pyFloatAt params (16 + rb.A + 4 * rb.K) = Except.ok zn) ∧
      (rb.planar_curve = false →
        rb.XNORM = none ∧ rb.YNORM = none ∧ rb.ZNORM = none) := by
  obtain ⟨p3, hp3⟩ := hp3
  obtain ⟨p4, hp4⟩ := hp4
  obtain ⟨p5, hp5⟩ := hp5
  obtain ⟨p6, hp6⟩ := hp6
  have hfl2 : ∀ i : ℤ, 7 ≤ i → i < (params.length : ℤ) →
      ∃ q, pyFloatAt params i = Except.ok q := by
    intro i h7 hl
    have h0 : (0 : ℤ) ≤ i := by omega
    have hnat := hfl i.toNat (by omega) (by omega)
    obtain ⟨q, hq⟩ := isOk_exists _ hnat
    refine ⟨q, ?_⟩
    rwa [Int.toNat_of_nonneg h0] at hq
  obtain ⟨T, hT, hTlen⟩ :=
    mapM_ok_of_forall (fun i => pyFloatAt params i)
      (pyRange 7 (7 + ((1 + (K : ℤ) - M) + 2 * M) + 1))
      (by
        intro i hi
        obtain ⟨hlo, hhi⟩ := mem_pyRange_bounds hi
        exact hfl2 i hlo (by omega))
  obtain ⟨W, hW, hWlen⟩ :=
    mapM_ok_of_forall (fun i => pyFloatAt params i)
      (pyRange (((1 + (K : ℤ) - M) + 2 * M) + 8)
        (((1 + (K : ℤ) - M) + 2 * M) + K + 8))
      (by
        intro i hi
        obtain ⟨hlo, hhi⟩ := mem_pyRange_bounds hi
        exact hfl2 i (by omega) (by omega))
  obtain ⟨cps, hcps, hcpslen⟩ :=
    mapM_ok_of_forall
      (fun i => do
        let x ← pyFloatAt params i
        let y ← pyFloatAt params (i + 1)
        let z ← pyFloatAt params (i + 2)
        pure (x, y, z))
      (pyRange3 (9 + ((1 + (K : ℤ) - M) + 2 * M) + K)
        (9 + ((1 + (K : ℤ) - M) + 2 * M) + 4 * K + 1))
      (by
        intro i hi
        obtain ⟨n, hn, rfl⟩ := mem_pyRange3.1 hi
        have hn2 : (n : ℤ) ≤ K := by omega
        obtain ⟨x, hx⟩ := hfl2 (9 + ((1 + (K : ℤ) - M) + 2 * M) + K + 3 * n)
          (by omega) (by omega)
        obtain ⟨y, hy⟩ := hfl2 (9 + ((1 + (K : ℤ) - M) + 2 * M) + K + 3 * n + 1)
          (by omega) (by omega)
        obtain ⟨z, hz⟩ := hfl2 (9 + ((1 + (K : ℤ) - M) + 2 * M) + K + 3 * n + 2)
          (by omega) (by omega)
        exact ⟨(x, y, z), by simp only [hx, hy, hz, ok_bind, pure_eq_ok]⟩)
  obtain ⟨v0, hv0⟩ := hfl2 (12 + ((1 + (K : ℤ) - M) + 2 * M) + 4 * K)
    (by omega) (by omega)
  obtain ⟨v1, hv1⟩ := hfl2 (13 + ((1 + (K : ℤ) - M) + 2 * M) + 4 * K)
    (by omega) (by omega)
  rw [length_pyRange] at hTlen hWlen
  rw [length_pyRange3] at hcpslen
  simp only [RationalBSplineCurve.add_parameters, hK, ok_bind, hM, hp3, hp4,
    hp5, hp6, hT, hW, hcps, hv0, hv1]
  rcases hlen with hlen | hlen
  · rw [if_neg (by omega)]
    refine ⟨_, rfl, rfl, rfl, rfl, rfl, ?_, ?_, hv0, hv1, ?_, ?_, ?_⟩
    · show (T.length : ℤ) = 1 + (K : ℤ) - M + 2 * M + 1
      omega
    · show cps.length = K + 1
      omega
    · show false = true ↔
        (params.length : ℤ) = 17 + (1 + (K : ℤ) - M + 2 * M) + 4 * (K : ℤ)
      constructor
      · intro habs
        exact absurd habs (by simp)
      · intro hl
        exfalso
        omega
    · intro habs
      exact absurd habs (by simp)
    · intro _
      exact ⟨rfl, rfl, rfl⟩
  · rw [if_pos (by omega)]
    obtain ⟨xn, hxn⟩ := hfl2 (14 + ((1 + (K : ℤ) - M) + 2 * M) + 4 * K)
      (by omega) (by omega)
    obtain ⟨yn, hyn⟩ := hfl2 (15 + ((1 + (K : ℤ) - M) + 2 * M) + 4 * K)
      (by omega) (by omega)
    obtain ⟨zn, hzn⟩ := hfl2 (16 + ((1 + (K : ℤ) - M) + 2 * M) + 4 * K)
      (by omega) (by omega)
    simp only [hxn, ok_bind, hyn, hzn]
    refine ⟨_, rfl, rfl, rfl, rfl, rfl, ?_, ?_, hv0, hv1, ?_, ?_, ?_⟩
    · show (T.length : ℤ) = 1 + (K : ℤ) - M + 2 * M + 1
      omega
    · show cps.length = K + 1
      omega
    · show true = true ↔
        (params.length : ℤ) = 17 + (1 + (K : ℤ) - M + 2 * M) + 4 * (K : ℤ)
      constructor
      · intro _
        omega
      · intro _
        rfl
    · intro _
      exact ⟨xn, yn, zn, rfl, rfl, rfl, hxn, hyn, hzn⟩
    · intro habs
      exact absurd habs (by simp)

/-- Witness for C8 at the concrete `K = 3, M = 3` list `rbscTokens`
(33 tokens, no unit normal): the well-formedness hypotheses evaluate and the
decode facts follow by applying the theorem. -/
theorem rbsc_wellformed_decode_witness :
    (pyIntAt rbscTokens 1 = Except.ok ((3 : ℕ) : ℤ) ∧
      pyIntAt rbscTokens 2 = Except.ok ((3 : ℕ) : ℤ) ∧
      (rbscTokens.length : ℤ) = 14 + (1 + (3 : ℕ) + (3 : ℕ)) + 4 * (3 : ℕ)) ∧
    (∃ rb, RationalBSplineCurve.add_parameters rbscTokens = Except.ok rb ∧
      rb.K = 3 ∧ rb.M = 3 ∧ (rb.T.length : ℤ) = rb.N + 2 * rb.M + 1 ∧
      rb.control_points.length = 3 + 1) := by
  refine ⟨⟨by decide, by decide, by decide⟩, ?_⟩
  obtain ⟨rb, h1, hK, hM, _, _, hT, hcp, _, _, _, _, _⟩ :=
    rbsc_wellformed_decode rbscTokens 3 3 (by decide) (by decide)
      ⟨0, by decide⟩ ⟨0, by decide⟩ ⟨1, by decide⟩ ⟨0, by decide⟩
      (by decide) (Or.inl (by decide))
  exact ⟨rb, h1, hK, hM, hT, hcp⟩

/--
C9 (confirmed): decoding a well-formed RationalBSplineSurface token list with
upper indices `K1, K2` and degrees `M1, M2` succeeds; the two knot vectors
have `K1 + M1 + 2` and `K2 + M2 + 2` elements, the weight grid has
`(K1+1)(K2+1)` entries, the control-point grid has `(K1+1)(K2+1)` rows of
three coordinates taken from the scalars immediately after the weights, and
`u0, u1, v0, v1` are the four scalars immediately following the control
points. -/
theorem rbss_wellformed_decode
    (input : List String) (qs : List ℚ) (k1 k2 m1 m2 : ℕ)
    (hqs : input.mapM pyFloatEx = Except.ok qs)
    (h1 : pyGet qs 1 = Except.ok ((k1 : ℤ) : ℚ))
    (h2 : pyGet qs 2 = Except.ok ((k2 : ℤ) : ℚ))
    (h3 : pyGet qs 3 = Except.ok ((m1 : ℤ) : ℚ))
    (h4 : pyGet qs 4 = Except.ok ((m2 : ℤ) : ℚ))
    (hlen : 14 + (k2 : ℤ) + (k1 : ℤ) + (m1 : ℤ) + (m2 : ℤ) +
        (1 + (k2 : ℤ)) * (1 + (k1 : ℤ)) +
        3 * ((1 + (k2 : ℤ)) * (1 + (k1 : ℤ))) + 4 ≤ (input.length : ℤ)) :
    ∃ rs, RationalBSplineSurface.add_parameters input = Except.ok rs ∧
      rs.k1 = k1 ∧ rs.k2 = k2 ∧ rs.m1 = m1 ∧ rs.m2 = m2 ∧
      rs.knot1.length = k1 + m1 + 2 ∧
      rs.knot2.length = k2 + m2 + 2 ∧
      rs.weights.length = (k1 + 1) * (k2 + 1) ∧
      rs.cp.length = (k1 + 1) * (k2 + 1) ∧
      rs.weights = pySlice qs (14 + rs.k2 + rs.m1 + rs.k1 + rs.m2)
        (14 + rs.k2 + rs.m1 + rs.k1 + rs.m2 + (1 + rs.k2) * (1 + rs.k1)) ∧
      flat3 rs.cp = pySlice qs
        (14 + rs.k2 + rs.m1 + rs.k1 + rs.m2 + (1 + rs.k2) * (1 + rs.k1))
        (14 + rs.k2 + rs.m1 + rs.k1 + rs.m2 + (1 + rs.k2) * (1 + rs.k1) +
          3 * ((1 + rs.k2) * (1 + rs.k1))) ∧
      pyGet qs (14 + rs.k2 + rs.m1 + rs.k1 + rs.m2 +
          (1 + rs.k2) * (1 + rs.k1) + 3 * ((1 + rs.k2) * (1 + rs.k1))) =
        Except.ok rs.u0 ∧
      pyGet qs (14 + rs.k2 + rs.m1 + rs.k1 + rs.m2 +
          (1 + rs.k2) * (1 + rs.k1) + 3 * ((1 + rs.k2) * (1 + rs.k1)) + 1) =
        Except.ok rs.u1 ∧
      pyGet qs (14 + rs.k2 + rs.m1 + rs.k1 + rs.m2 +
          (1 + rs.k2) * (1 + rs.k1) + 3 * ((1 + rs.k2) * (1 + rs.k1)) + 2) =
        Except.ok rs.v0 ∧
      pyGet qs (14 + rs.k2 + rs.m1 + rs.k1 + rs.m2 +
          (1 + rs.k2) * (1 + rs.k1) + 3 * ((1 + rs.k2) * (1 + rs.k1)) + 3) =
        Except.ok rs.v1 := by
  have hql : (qs.length : ℤ) = (input.length : ℤ) := by
    exact_mod_cast congrArg Nat.cast (mapM_ok_length pyFloatEx input qs hqs)
  have hP1 : (1 : ℤ) ≤ (1 + (k2 : ℤ)) * (1 + (k1 : ℤ)) := by
    have := mul_le_mul (by omega : (1 : ℤ) ≤ 1 + (k2 : ℤ))
      (by omega : (1 : ℤ) ≤ 1 + (k1 : ℤ)) (by omega) (by omega)
    simpa using this
  have h3P : 3 * (1 + (k2 : ℤ)) * (1 + (k1 : ℤ)) =
      3 * ((1 + (k2 : ℤ)) * (1 + (k1 : ℤ))) := by ring
  have hPn : (1 + (k2 : ℤ)) * (1 + (k1 : ℤ)) =
      (((k1 + 1) * (k2 + 1) : ℕ) : ℤ) := by
    push_cast
    ring
  obtain ⟨q5, hq5⟩ := pyGet_isOk qs 5 (by omega) (by omega)
  obtain ⟨q6, hq6⟩ := pyGet_isOk qs 6 (by omega) (by omega)
  obtain ⟨q7, hq7⟩ := pyGet_isOk qs 7 (by omega) (by omega)
  obtain ⟨q8, hq8⟩ := pyGet_isOk qs 8 (by omega) (by omega)
  obtain ⟨q9, hq9⟩ := pyGet_isOk qs 9 (by omega) (by omega)
  have hknot1 : (pySlice qs 10 (12 + (k1 : ℤ) + (m1 : ℤ))).length =
      k1 + m1 + 2 := by
    rw [length_pySlice qs _ _ (by omega) (by omega) (by omega)]
    omega
  have hknot2 : (pySlice qs (12 + (k1 : ℤ) + (m1 : ℤ))
      (14 + (k2 : ℤ) + (m1 : ℤ) + (k1 : ℤ) + (m2 : ℤ))).length =
      k2 + m2 + 2 := by
    rw [length_pySlice qs _ _ (by omega) (by omega) (by omega)]
    omega
  have hwlen : (pySlice qs (14 + (k2 : ℤ) + (m1 : ℤ) + (k1 : ℤ) + (m2 : ℤ))
      (14 + (k2 : ℤ) + (m1 : ℤ) + (k1 : ℤ) + (m2 : ℤ) +
        (1 + (k2 : ℤ)) * (1 + (k1 : ℤ)))).length = (k1 + 1) * (k2 + 1) := by
    rw [length_pySlice qs _ _ (by omega) (by omega) (by omega)]
    omega
  have hsl3 : (pySlice qs
      (14 + (k2 : ℤ) + (k1 : ℤ) + (m1 : ℤ) + (m2 : ℤ) +
        (1 + (k2 : ℤ)) * (1 + (k1 : ℤ)))
      (14 + (k2 : ℤ) + (k1 : ℤ) + (m1 : ℤ) + (m2 : ℤ) +
        (1 + (k2 : ℤ)) * (1 + (k1 : ℤ)) +
        3 * (1 + (k2 : ℤ)) * (1 + (k1 : ℤ)))).length =
      3 * ((k1 + 1) * (k2 + 1)) := by
    rw [length_pySlice qs _ _ (by omega) (by omega) (by omega)]
    omega
  obtain ⟨rows, hrows, hrowlen, hrowflat⟩ :=
    chunk3_of_length ((k1 + 1) * (k2 + 1)) _ hsl3
  have hresh : reshape3 (pySlice qs
      (14 + (k2 : ℤ) + (k1 : ℤ) + (m1 : ℤ) + (m2 : ℤ) +
        (1 + (k2 : ℤ)) * (1 + (k1 : ℤ)))
      (14 + (k2 : ℤ) + (k1 : ℤ) + (m1 : ℤ) + (m2 : ℤ) +
        (1 + (k2 : ℤ)) * (1 + (k1 : ℤ)) +
        3 * (1 + (k2 : ℤ)) * (1 + (k1 : ℤ)))) = Except.ok rows := by
    simp only [reshape3, hrows]
  obtain ⟨u0, hu0⟩ := pyGet_isOk qs
    (14 + (k2 : ℤ) + (k1 : ℤ) + (m1 : ℤ) + (m2 : ℤ) +
      (1 + (k2 : ℤ)) * (1 + (k1 : ℤ)) + 3 * (1 + (k2 : ℤ)) * (1 + (k1 : ℤ)))
    (by omega) (by omega)
  obtain ⟨u1, hu1⟩ := pyGet_isOk qs
    (14 + (k2 : ℤ) + (k1 : ℤ) + (m1 : ℤ) + (m2 : ℤ) +
      (1 + (k2 : ℤ)) * (1 + (k1 : ℤ)) + 3 * (1 + (k2 : ℤ)) * (1 + (k1 : ℤ)) + 1)
    (by omega) (by omega)
  obtain ⟨v0, hv0⟩ := pyGet_isOk qs
    (14 + (k2 : ℤ) + (k1 : ℤ) + (m1 : ℤ) + (m2 : ℤ) +
      (1 + (k2 : ℤ)) * (1 + (k1 : ℤ)) + 3 * (1 + (k2 : ℤ)) * (1 + (k1 : ℤ)) + 2)
    (by omega) (by omega)
  obtain ⟨v1, hv1⟩ := pyGet_isOk qs
    (14 + (k2 : ℤ) + (k1 : ℤ) + (m1 : ℤ) + (m2 : ℤ) +
      (1 + (k2 : ℤ)) * (1 + (k1 : ℤ)) + 3 * (1 + (k2 : ℤ)) * (1 + (k1 : ℤ)) + 3)
    (by omega) (by omega)
  simp only [RationalBSplineSurface.add_parameters, hqs, ok_bind, h1, h2, h3,
    h4, pyTrunc_intCast, hq5, hq6, hq7, hq8, hq9, hresh, hu0, hu1, hv0, hv1,
    pure_eq_ok]
  refine ⟨_, rfl, rfl, rfl, rfl, rfl, ?_, ?_, ?_, ?_, ?_, ?_, ?_, ?_, ?_, ?_⟩
  · exact hknot1
  · exact hknot2
  · exact hwlen
  · exact hrowlen
  · rfl
  · show flat3 rows = pySlice qs
      (14 + (k2 : ℤ) + (m1 : ℤ) + (k1 : ℤ) + (m2 : ℤ) +
        (1 + (k2 : ℤ)) * (1 + (k1 : ℤ)))
      (14 + (k2 : ℤ) + (m1 : ℤ) + (k1 : ℤ) + (m2 : ℤ) +
        (1 + (k2 : ℤ)) * (1 + (k1 : ℤ)) + 3 * ((1 + (k2 : ℤ)) * (1 + (k1 : ℤ))))
    rw [(by ring : 14 + (k2 : ℤ) + (m1 : ℤ) + (k1 : ℤ) + (m2 : ℤ) +
        (1 + (k2 : ℤ)) * (1 + (k1 : ℤ)) =
      14 + (k2 : ℤ) + (k1 : ℤ) + (m1 : ℤ) + (m2 : ℤ) +
        (1 + (k2 : ℤ)) * (1 + (k1 : ℤ)))]
    rw [(by ring : 14 + (k2 : ℤ) + (k1 : ℤ) + (m1 : ℤ) + (m2 : ℤ) +
        (1 + (k2 : ℤ)) * (1 + (k1 : ℤ)) + 3 * ((1 + (k2 : ℤ)) * (1 + (k1 : ℤ))) =
      14 + (k2 : ℤ) + (k1 : ℤ) + (m1 : ℤ) + (m2 : ℤ) +
        (1 + (k2 : ℤ)) * (1 + (k1 : ℤ)) + 3 * (1 + (k2 : ℤ)) * (1 + (k1 : ℤ)))]
    exact hrowflat
  · show pyGet qs (14 + (k2 : ℤ) + (m1 : ℤ) + (k1 : ℤ) + (m2 : ℤ) +
        (1 + (k2 : ℤ)) * (1 + (k1 : ℤ)) +
        3 * ((1 + (k2 : ℤ)) * (1 + (k1 : ℤ)))) = Except.ok u0
    rw [(by ring : 14 + (k2 : ℤ) + (m1 : ℤ) + (k1 : ℤ) + (m2 : ℤ) +
        (1 + (k2 : ℤ)) * (1 + (k1 : ℤ)) + 3 * ((1 + (k2 : ℤ)) * (1 + (k1 : ℤ))) =
      14 + (k2 : ℤ) + (k1 : ℤ) + (m1 : ℤ) + (m2 : ℤ) +
        (1 + (k2 : ℤ)) * (1 + (k1 : ℤ)) + 3 * (1 + (k2 : ℤ)) * (1 + (k1 : ℤ)))]
    exact hu0
  · show pyGet qs (14 + (k2 : ℤ) + (m1 : ℤ) + (k1 : ℤ) + (m2 : ℤ) +
        (1 + (k2 : ℤ)) * (1 + (k1 : ℤ)) +
        3 * ((1 + (k2 : ℤ)) * (1 + (k1 : ℤ))) + 1) = Except.ok u1
    rw [(by ring : 14 + (k2 : ℤ) + (m1 : ℤ) + (k1 : ℤ) + (m2 : ℤ) +
        (1 + (k2 : ℤ)) * (1 + (k1 : ℤ)) + 3 * ((1 + (k2 : ℤ)) * (1 + (k1 : ℤ))) + 1 =
      14 + (k2 : ℤ) + (k1 : ℤ) + (m1 : ℤ) + (m2 : ℤ) +
        (1 + (k2 : ℤ)) * (1 + (k1 : ℤ)) + 3 * (1 + (k2 : ℤ)) * (1 + (k1 : ℤ)) + 1)]
    exact hu1
  · show pyGet qs (14 + (k2 : ℤ) + (m1 : ℤ) + (k1 : ℤ) + (m2 : ℤ) +
        (1 + (k2 : ℤ)) * (1 + (k1 : ℤ)) +
        3 * ((1 + (k2 : ℤ)) * (1 + (k1 : ℤ))) + 2) = Except.ok v0
    rw [(by ring : 14 + (k2 : ℤ) + (m1 : ℤ) + (k1 : ℤ) + (m2 : ℤ) +
        (1 + (k2 : ℤ)) * (1 + (k1 : ℤ)) + 3 * ((1 + (k2 : ℤ)) * (1 + (k1 : ℤ))) + 2 =
      14 + (k2 : ℤ) + (k1 : ℤ) + (m1 : ℤ) + (m2 : ℤ) +
        (1 + (k2 : ℤ)) * (1 + (k1 : ℤ)) + 3 * (1 + (k2 : ℤ)) * (1 + (k1 : ℤ)) + 2)]
    exact hv0
  · show pyGet qs (14 + (k2 : ℤ) + (m1 : ℤ) + (k1 : ℤ) + (m2 : ℤ) +
        (1 + (k2 : ℤ)) * (1 + (k1 : ℤ)) +
        3 * ((1 + (k2 : ℤ)) * (1 + (k1 : ℤ))) + 3) = Except.ok v1
    rw [(by ring : 14 + (k2 : ℤ) + (m1 : ℤ) + (k1 : ℤ) + (m2 : ℤ) +
        (1 + (k2 : ℤ)) * (1 + (k1 : ℤ)) + 3 * ((1 + (k2 : ℤ)) * (1 + (k1 : ℤ))) + 3 =
      14 + (k2 : ℤ) + (k1 : ℤ) + (m1 : ℤ) + (m2 : ℤ) +
        (1 + (k2 : ℤ)) * (1 + (k1 : ℤ)) + 3 * (1 + (k2 : ℤ)) * (1 + (k1 : ℤ)) + 3)]
    exact hv1

/-- Witness for C9 at the concrete `K1 = K2 = M1 = M2 = 0` list `rbssTokens`
(22 tokens): the well-formedness hypotheses evaluate and the decode facts
follow by applying the theorem. -/
theorem rbss_wellformed_decode_witness :
    (rbssTokens.mapM pyFloatEx = Except.ok rbssValues ∧
      pyGet rbssValues 1 = Except.ok (((0 : ℕ) : ℤ) : ℚ) ∧
      14 + ((0 : ℕ) : ℤ) + ((0 : ℕ) : ℤ) + ((0 : ℕ) : ℤ) + ((0 : ℕ) : ℤ) +
        (1 + ((0 : ℕ) : ℤ)) * (1 + ((0 : ℕ) : ℤ)) +
        3 * ((1 + ((0 : ℕ) : ℤ)) * (1 + ((0 : ℕ) : ℤ))) + 4 ≤
        (rbssTokens.length : ℤ)) ∧
    (∃ rs, RationalBSplineSurface.add_parameters rbssTokens = Except.ok rs ∧
      rs.k1 = 0 ∧ rs.k2 = 0 ∧ rs.knot1.length = 2 ∧ rs.knot2.length = 2 ∧
      rs.weights.length = 1 ∧ rs.cp.length = 1) := by
  refine ⟨⟨by decide, by decide, by decide⟩, ?_⟩
  obtain ⟨rs, hok, hk1, hk2, _, _, hkn1, hkn2, hw, hcp, _⟩ :=
    rbss_wellformed_decode rbssTokens rbssValues 0 0 0 0 (by decide)
      (by decide) (by decide) (by decide) (by decide) (by decide)
  exact ⟨rs, hok, hk1, hk2, hkn1, hkn2, hw, hcp⟩
